import Mathlib

/-!
# Verification of the aip444 code-review agent core

A shallow embedding, in Lean 4, of the tool-calling agent loop of
`src/assignments/assignment-1` (`agents.py`, `review.py`, `tools.py`) and of
the CLI startup of `src/labs/lab1/scribe.py`, together with theorems that
settle the specification claims about it.

Modelling conventions:
* Python's `json.loads` (standard library, not part of this repository) is
  modelled by a recursive-descent parser `pyJsonLoads` over a `Json` value
  type; number literals are restricted to integers, which covers every
  literal occurring in this repository. A raised `JSONDecodeError` is an
  `Except.error`.
* Python string/list slicing, `str.find`/`str.rfind` and keyword-argument
  binding are modelled by `pySlice`, `strFind`, `strRfind` and `bindKwargs`,
  following the language semantics.
* The network is abstracted: the model behind `_call_llm` is an oracle
  `List Message → LlmMessage` (the tool definitions sent along are the
  constant `tool_definitions` list, so they are absorbed into the oracle),
  and the injected `tool_handler` seen by the loop is an oracle returning
  text, matching the tool-boundary contract that tools return text.
  Tool-call arguments are carried already parsed, as the mapping the loop
  obtains from `json.loads(tool_call["function"]["arguments"])`.
-/

namespace Aip444

/-- JSON values, the results of the model of Python's `json.loads`. -/
inductive Json where
  | null : Json
  | bool (b : Bool) : Json
  | num (n : Int) : Json
  | str (s : String) : Json
  | arr (elems : List Json) : Json
  | obj (fields : List (String × Json)) : Json

/-- Skip JSON whitespace between tokens, as `json.loads` does. -/
def skipWs : List Char → List Char
  | [] => []
  | c :: cs => if c = ' ' ∨ c = '\t' ∨ c = '\n' ∨ c = '\r' then skipWs cs else c :: cs

/-- Decode one JSON string escape character. -/
def unescapeChar : Char → Except String Char
  | '"' => .ok '"'
  | '\\' => .ok '\\'
  | '/' => .ok '/'
  | 'n' => .ok '\n'
  | 't' => .ok '\t'
  | 'r' => .ok '\r'
  | _ => .error "Invalid escape"

/-- Parse the characters of a JSON string after the opening quote, up to and
including the closing quote; returns the content and the rest. -/
def parseStringChars : List Char → Except String (List Char × List Char)
  | [] => .error "Unterminated string"
  | '"' :: rest => .ok ([], rest)
  | '\\' :: [] => .error "Unterminated string"
  | '\\' :: e :: rest => do
      let c ← unescapeChar e
      let (s, r) ← parseStringChars rest
      return (c :: s, r)
  | c :: rest => do
      let (s, r) ← parseStringChars rest
      return (c :: s, r)

/-- Value of a list of decimal digits. -/
def digitsToNat (ds : List Char) : Nat :=
  ds.foldl (fun acc c => acc * 10 + (c.toNat - 48)) 0

/-- Parse an integer JSON number literal (optionally negated). -/
def parseNumber (cs : List Char) : Except String (Json × List Char) :=
  match cs with
  | '-' :: rest =>
      let ds := rest.takeWhile Char.isDigit
      if ds.isEmpty then .error "Expecting value"
      else .ok (.num (-(digitsToNat ds : Int)), rest.dropWhile Char.isDigit)
  | _ =>
      let ds := cs.takeWhile Char.isDigit
      if ds.isEmpty then .error "Expecting value"
      else .ok (.num (digitsToNat ds : Int), cs.dropWhile Char.isDigit)

mutual

/-- Parse one JSON value; the fuel bounds nesting depth. -/
def parseValue : Nat → List Char → Except String (Json × List Char)
  | 0, _ => .error "Too deeply nested"
  | fuel + 1, cs =>
    match skipWs cs with
    | [] => .error "Expecting value"
    | 'n' :: 'u' :: 'l' :: 'l' :: rest => .ok (.null, rest)
    | 't' :: 'r' :: 'u' :: 'e' :: rest => .ok (.bool true, rest)
    | 'f' :: 'a' :: 'l' :: 's' :: 'e' :: rest => .ok (.bool false, rest)
    | '"' :: rest => do
        let (s, r) ← parseStringChars rest
        return (.str ⟨s⟩, r)
    | '[' :: rest =>
        (match skipWs rest with
         | ']' :: r => .ok (.arr [], r)
         | _ => do
            let (es, r) ← parseElems fuel rest
            return (.arr es, r))
    | '\x7b' :: rest =>
        (match skipWs rest with
         | '\x7d' :: r => .ok (.obj [], r)
         | _ => do
            let (fs, r) ← parseFields fuel rest
            return (.obj fs, r))
    | c :: rest => parseNumber (c :: rest)

/-- Parse the comma-separated elements of a nonempty JSON array, up to and
including the closing bracket. -/
def parseElems : Nat → List Char → Except String (List Json × List Char)
  | 0, _ => .error "Too deeply nested"
  | fuel + 1, cs => do
      let (v, r) ← parseValue fuel cs
      match skipWs r with
      | ',' :: r2 => do
          let (vs, r3) ← parseElems fuel r2
          return (v :: vs, r3)
      | ']' :: r2 => .ok ([v], r2)
      | _ => .error "Expecting comma or bracket"

/-- Parse the members of a nonempty JSON object, up to and including the
closing brace. -/
def parseFields : Nat → List Char → Except String (List (String × Json) × List Char)
  | 0, _ => .error "Too deeply nested"
  | fuel + 1, cs =>
      match skipWs cs with
      | '"' :: rest => do
          let (k, r) ← parseStringChars rest
          match skipWs r with
          | ':' :: r2 => do
              let (v, r3) ← parseValue fuel r2
              (match skipWs r3 with
               | ',' :: r4 => do
                  let (fs, r5) ← parseFields fuel r4
                  return ((⟨k⟩, v) :: fs, r5)
               | '\x7d' :: r4 => .ok ([(⟨k⟩, v)], r4)
               | _ => .error "Expecting comma or brace")
          | _ => .error "Expecting colon"
      | _ => .error "Expecting property name"

end

/-- Model of Python's `json.loads`: parse one value, then require that only
whitespace remains; any failure is a raised `JSONDecodeError`. -/
def pyJsonLoads (s : String) : Except String Json := do
  let (v, r) ← parseValue (s.length + 1) s.toList
  if (skipWs r).isEmpty then return v else .error "Extra data"

/-- Python list/string slice `l[a:b]` (step 1), with Python's clamping and
negative-index semantics. -/
def pySlice {α : Type} (l : List α) (a b : Int) : List α :=
  let n : Int := l.length
  let lo : Nat := if a < 0 then (max (n + a) 0).toNat else min a.toNat l.length
  let hi : Nat := if b < 0 then (max (n + b) 0).toNat else min b.toNat l.length
  (l.take hi).drop lo

/-- Python `s.find(c)`: index of the first occurrence of `c`, `-1` if absent. -/
def strFind (s : String) (c : Char) : Int :=
  match s.toList.findIdx? (fun x => x == c) with
  | some i => (i : Int)
  | none => -1

/-- Python `s.rfind(c)`: index of the last occurrence of `c`, `-1` if absent. -/
def strRfind (s : String) (c : Char) : Int :=
  match s.toList.reverse.findIdx? (fun x => x == c) with
  | some i => ((s.toList.length - 1 - i : Nat) : Int)
  | none => -1

/-- Python string slice `s[a:b]`. -/
def pySubstr (s : String) (a b : Int) : String :=
  ⟨pySlice s.toList a b⟩

/-- The body of the `try:` block at the terminal branch of `Reviewer.review`
(agents.py): take the first `[` and the last `]` of the text; if both exist,
`json.loads` the enclosed slice (a parse error propagates as an exception);
otherwise return the empty list. -/
def extractBody (text : String) : Except String Json :=
  let start := strFind text '['
  let stop := strRfind text ']' + 1
  if start ≠ -1 ∧ stop ≠ 0 then pyJsonLoads (pySubstr text start stop)
  else .ok (Json.arr [])

/-- The structured-output extraction of `Reviewer.review` as its caller sees
it: the `try:` body with every exception caught and turned into `[]`. -/
def extract (text : String) : Json :=
  match extractBody text with
  | .ok v => v
  | .error _ => Json.arr []

-- Sanity checks of the extractor on concrete text (scratch, kept as examples).
example : extract "no brackets here" = Json.arr [] := rfl
example : extract "noise [1, 2] tail" = Json.arr [Json.num 1, Json.num 2] := rfl
example : extract "][" = Json.arr [] := rfl

/-! ## Conversation data model (agents.py) -/

/-- Role tags of transcript messages. -/
inductive Role where
  | system
  | user
  | assistant
  | tool
deriving Repr, DecidableEq

/-- One tool invocation requested by the model. `arguments` carries the
mapping the loop obtains from `json.loads(tool_call["function"]["arguments"])`. -/
structure ToolCall where
  id : String
  name : String
  arguments : List (String × Json)

/-- One transcript message, covering every dict shape `Reviewer.review`
appends to `messages`. -/
structure Message where
  role : Role
  content : String
  tool_calls : List ToolCall
  tool_call_id : Option String
  name : Option String

/-- The part of a chat-completion response message the loop reads:
`message.get("content", "")` and `message.get("tool_calls")` (an absent or
null `tool_calls` is the empty list). -/
structure LlmMessage where
  content : String
  tool_calls : List ToolCall

/-- A `{"role": "system", "content": s}` message. -/
def mkSystem (s : String) : Message :=
  ⟨Role.system, s, [], none, none⟩

/-- A `{"role": "user", "content": s}` message. -/
def mkUser (s : String) : Message :=
  ⟨Role.user, s, [], none, none⟩

/-- The assistant response message as appended verbatim by
`messages.append(message)`. -/
def assistantMsgOf (m : LlmMessage) : Message :=
  ⟨Role.assistant, m.content, m.tool_calls, none, none⟩

/-- The tool-result message the loop appends for one tool call:
`{"role": "tool", "tool_call_id": tool_call["id"], "name": func_name,
"content": str(result)}`. -/
def toolResultMsg (tc : ToolCall) (result : String) : Message :=
  ⟨Role.tool, result, [], some tc.id, some tc.name⟩

/-! ## The agent loop of `Reviewer.review` (agents.py) -/

/-- The system prompt built by `Reviewer.review` (an f-string in the source;
its indentation is part of the string value). -/
def systemPrompt (name persona filename : String) : String :=
  s!"You are {name}. {persona}

        You will receive content from a file named '{filename}'.
        Your goal is to find issues and return them in a structured JSON format.

        Available tools:
        - read_file(file_path, start_line, end_line): Use this to see more context around a change.
        - grep_codebase(search_pattern): Use this to find definitions of functions or variables.
        - get_file_history(file_path): Use this to see past changes to a file.

        MANDATORY PROOF OF WORK: As part of the 'Golden Dataset Proof', you MUST call EACH of the following tools at least once before providing your final JSON findings:
        1. `read_file` (use '{filename}' as the file_path)
        2. `grep_codebase`
        3. `get_file_history` (use '{filename}' as the file_path)

        Failure to use all three tools will result in an incomplete review.

        RESPONSE FORMAT:
        You must first provide your reasoning for calling tools if needed.
        Once you have used all three tools and gathered information, provide your findings as an ARRAY of JSON objects:
        [
          \x7b\x7b
            \"file\": \"{filename}\",
            \"line_number\": 123,
            \"severity\": \"critical|warn|info\",
            \"category\": \"security|style|logic|etc\",
            \"description\": \"Short explanation\"
          \x7d\x7d
        ]

        If no issues are found, return an empty array [].
        Do not include any other text in the final response except the JSON array.
        "

/-- The two messages `review` starts its transcript with. -/
def initialMessages (name persona content filename mode : String) : List Message :=
  [mkSystem (systemPrompt name persona filename),
   mkUser s!"Review this {mode} content from {filename}:\n\n{content}"]

/-- Outcome of one `review` run: the returned findings, the number of
chat-completion calls made, and the final `messages` transcript. -/
structure RunResult where
  findings : Json
  modelCalls : Nat
  transcript : List Message

/-- The tool-result messages appended for one response's tool calls, one per
call, in issuance order, each carrying the dispatch result for that call. -/
def toolResults (dispatch : String → List (String × Json) → String)
    (tcs : List ToolCall) : List Message :=
  tcs.map (fun tc => toolResultMsg tc (dispatch tc.name tc.arguments))

/-- The `for _ in range(5)` loop of `Reviewer.review`, instrumented to also
report the number of model calls and the final transcript. Each iteration
calls the model oracle on the current transcript; a response without tool
calls is terminal and its content goes through `extract`; otherwise the
assistant message and one tool-role result per call are appended and the
loop continues. Exhausting the range returns `[]`. -/
def reviewAux (llm : List Message → LlmMessage)
    (dispatch : String → List (String × Json) → String) :
    List Message → Nat → Nat → RunResult
  | messages, calls, 0 => ⟨Json.arr [], calls, messages⟩
  | messages, calls, fuel + 1 =>
    match (llm messages).tool_calls with
    | [] => ⟨extract (llm messages).content, calls + 1, messages⟩
    | _ :: _ =>
        reviewAux llm dispatch
          (messages ++ assistantMsgOf (llm messages) ::
            toolResults dispatch (llm messages).tool_calls)
          (calls + 1) fuel

/-- `Reviewer.review`: build the two initial messages and run the loop with
a round budget of 5. -/
def review (llm : List Message → LlmMessage)
    (dispatch : String → List (String × Json) → String)
    (name persona content filename mode : String) : RunResult :=
  reviewAux llm dispatch (initialMessages name persona content filename mode) 0 5

/-! ## The tool-call pairing invariant on transcripts -/

/-- Sequential check of the tool-call pairing invariant: `pending` holds the
ids of tool calls of the last message that still await their tool-role
results. A message carrying tool calls must be immediately followed by one
tool-role message per call, in issuance order, each `tool_call_id` matching
the id of the call at the same position. -/
def wpGo : List String → List Message → Bool
  | pending, [] => pending.isEmpty
  | p :: ps, m :: rest =>
      decide (m.role = Role.tool) && decide (m.tool_call_id = some p) && wpGo ps rest
  | [], m :: rest => wpGo (m.tool_calls.map (fun tc => tc.id)) rest

/-- The transcript pairing invariant: every tool call is followed by its
paired tool-role result, in issuance order. -/
def wellPaired (ms : List Message) : Bool :=
  wpGo [] ms

/-! ## Tool dispatch: `tool_handler` of review.py over the declared schemas -/

/-- One parameter of a tool's signature: its keyword and whether the Python
function requires it (no default value). -/
structure ParamSpec where
  pname : String
  required : Bool
deriving Repr, DecidableEq

/-- The keyword parameters of the three registered handlers
(`read_file`, `grep_codebase`, `get_file_history` in tools.py); `none` for
an unregistered name. These coincide with the `required` lists declared in
`tool_definitions` of agents.py. -/
def toolParams : String → Option (List ParamSpec)
  | "read_file" => some [⟨"file_path", true⟩, ⟨"start_line", false⟩, ⟨"end_line", false⟩]
  | "grep_codebase" => some [⟨"search_pattern", true⟩]
  | "get_file_history" => some [⟨"file_path", true⟩]
  | _ => none

/-- First value bound to keyword `k` in an argument mapping. -/
def lookupArg (args : List (String × Json)) (k : String) : Option Json :=
  (args.find? (fun p => p.1 == k)).map (fun p => p.2)

/-- Python keyword-argument binding for a call `f(**args)` against the
parameters of `f`: an argument keyword no parameter declares, or a required
parameter no argument supplies, raises `TypeError` before the body runs. -/
def bindKwargs (params : List ParamSpec) (args : List (String × Json)) :
    Except String (List (String × Json)) :=
  if args.any (fun a => params.all (fun p => !(p.pname == a.1))) then
    .error "TypeError: unexpected keyword argument"
  else if params.any (fun p => p.required && (lookupArg args p.pname).isNone) then
    .error "TypeError: missing required argument"
  else .ok args

/-- `tool_handler` of review.py: dispatch on the tool name; the three known
names call their handler as `handler(**args)` (so binding failures are
uncaught `TypeError`s, modelled as `Except.error`); any other name returns
the not-found text. The handler bodies perform I/O and are abstracted by
the oracle `run`. -/
def tool_handler (run : String → List (String × Json) → String)
    (name : String) (args : List (String × Json)) : Except String String :=
  match toolParams name with
  | some params => (bindKwargs params args).map (fun bound => run name bound)
  | none => .ok ("Error: Tool " ++ name ++ " not found.")

/-! ## Transcript append (the spec's Conversation State `append`) -/

/-- The spec's protocol-violation error for mismatched tool-call pairing. -/
inductive ProtocolError where
  | mismatchedToolCallId
deriving Repr, DecidableEq

/-- Appending to the transcript as the source does it: `messages` is a plain
Python list and `messages.append(m)` always succeeds; the `Except` result
type records whether any `ProtocolError` can be raised at append time. -/
def appendMessage (ms : List Message) (m : Message) :
    Except ProtocolError (List Message) :=
  .ok (ms ++ [m])

/-! ## CLI startup of review.py and scribe.py -/

/-- Python `str.strip()`: remove leading and trailing whitespace. -/
def pyStrip (s : String) : String :=
  ⟨((s.toList.dropWhile Char.isWhitespace).reverse.dropWhile
    Char.isWhitespace).reverse⟩

/-- Outcome of a CLI startup path: either terminate the process with an exit
status and a printed message, or proceed to the reviews with the selected
subject content and mode. -/
inductive StartupResult where
  | exit (code : Nat) (msg : String)
  | proceed (content : String) (mode : String)
deriving Repr, DecidableEq

/-- Subject selection of `main` in review.py. `fileExists` and `readF` model
the filesystem, `gitFails` models the `subprocess.run` call raising, and
`stagedOut` is the stdout of `git diff --staged`. An `--file` argument is
used when truthy (present and nonempty); otherwise git mode strips the
staged diff and exits with status 0 when it is empty. -/
def reviewMainStartup (fileExists : String → Bool) (readF : String → String)
    (gitFails : Bool) (stagedOut : String) (fileArg : Option String) :
    StartupResult :=
  if (fileArg.getD "") ≠ "" then
    let f := fileArg.getD ""
    if !(fileExists f) then
      .exit 1 ("Error: File '" ++ f ++ "' not found.")
    else
      .proceed (readF f) "File"
  else if gitFails then
    .exit 1 "Error checking git changes: ..."
  else if pyStrip stagedOut = "" then
    .exit 0 "No staged changes to review."
  else
    .proceed (pyStrip stagedOut) "Git"

/-- Python truthiness of an optional string (`not os.getenv(...)`): `None`
and the empty string are falsy. -/
def pyFalsyStr : Option String → Bool
  | none => true
  | some s => s == ""

/-- Outcome of scribe.py's module-level startup. -/
inductive ScribeResult where
  | exit (code : Nat) (msg : String)
  | proceed (diff : String)
deriving Repr, DecidableEq

/-- Module-level startup of lab1's scribe.py: missing/empty
`OPENROUTER_API_KEY` exits 1; a failing `git diff --staged` (`check=True`)
exits 1; an empty stripped diff exits 1; otherwise proceed with the diff. -/
def scribeStartup (apiKey : Option String) (gitOk : Bool) (stagedOut : String) :
    ScribeResult :=
  if pyFalsyStr apiKey then
    .exit 1 "❌ Error: OPENROUTER_API_KEY not found"
  else if !gitOk then
    .exit 1 "❌ Not a git repository"
  else if pyStrip stagedOut = "" then
    .exit 1 "❌ No staged changes found"
  else
    .proceed (pyStrip stagedOut)

/-! ## `read_file` of tools.py -/

/-- Contents of one file as the tool sees it: the byte size reported by
`os.path.getsize` and the list returned by `readlines()` (each line keeps
its newline). -/
structure FileData where
  size : Nat
  lines : List String
deriving Repr, DecidableEq

/-- `read_file(file_path, start_line=None, end_line=None)` of tools.py over
an abstract filesystem `fs`: missing file and oversized file return error
text; the 1-indexed line range is applied through Python slicing only when
both bounds are given; content longer than 50000 characters is truncated
with a marker. -/
def read_file (fs : String → Option FileData) (file_path : String)
    (start_line : Option Int) (end_line : Option Int) : String :=
  match fs file_path with
  | none => "Error: File '" ++ file_path ++ "' not found."
  | some fd =>
    if fd.size > 1000000 then
      "Error: File '" ++ file_path ++ "' is too large to read (limit 1MB)."
    else
      let content :=
        match start_line, end_line with
        | some s, some e => String.join (pySlice fd.lines (max 0 (s - 1)) e)
        | _, _ => String.join fd.lines
      if content.length > 50000 then
        content.take 50000 ++ "\n... [TRUNCATED DUE TO LENGTH] ..."
      else content

/-! ## Helper lemmas about the loop and the pairing invariant -/

theorem reviewAux_terminal (llm : List Message → LlmMessage)
    (d : String → List (String × Json) → String) (msgs : List Message)
    (calls fuel : Nat) (h : (llm msgs).tool_calls = []) :
    reviewAux llm d msgs calls (fuel + 1) =
      ⟨extract (llm msgs).content, calls + 1, msgs⟩ := by
  unfold reviewAux
  rw [h]

theorem reviewAux_step (llm : List Message → LlmMessage)
    (d : String → List (String × Json) → String) (msgs : List Message)
    (calls fuel : Nat) (tc : ToolCall) (tcs : List ToolCall)
    (h : (llm msgs).tool_calls = tc :: tcs) :
    reviewAux llm d msgs calls (fuel + 1) =
      reviewAux llm d
        (msgs ++ assistantMsgOf (llm msgs) :: toolResults d (llm msgs).tool_calls)
        (calls + 1) fuel := by
  conv_lhs => unfold reviewAux
  rw [h]

theorem wpGo_append (ys : List Message) (hy : wpGo [] ys = true) :
    ∀ (xs : List Message) (pending : List String), wpGo pending xs = true →
      wpGo pending (xs ++ ys) = true := by
  intro xs
  induction xs with
  | nil =>
      intro pending h
      have hp : pending = [] := by
        cases pending with
        | nil => rfl
        | cons a as => simp [wpGo] at h
      subst hp
      simpa using hy
  | cons m rest ih =>
      intro pending h
      cases pending with
      | nil =>
          rw [List.cons_append]
          show wpGo (m.tool_calls.map (fun tc => tc.id)) (rest ++ ys) = true
          exact ih _ h
      | cons p ps =>
          rw [List.cons_append]
          simp only [wpGo, Bool.and_eq_true] at h ⊢
          exact ⟨h.1, ih ps h.2⟩

theorem wpGo_toolResults (d : String → List (String × Json) → String)
    (tcs : List ToolCall) :
    wpGo (tcs.map (fun tc => tc.id)) (toolResults d tcs) = true := by
  induction tcs with
  | nil => rfl
  | cons tc rest ih =>
      simp only [List.map_cons, toolResults, wpGo, toolResultMsg, Bool.and_eq_true]
      refine ⟨⟨by simp, by simp⟩, ?_⟩
      simpa [toolResults] using ih

theorem wellPaired_roundBlock (d : String → List (String × Json) → String)
    (m : LlmMessage) :
    wellPaired (assistantMsgOf m :: toolResults d m.tool_calls) = true := by
  show wpGo ((assistantMsgOf m).tool_calls.map (fun tc => tc.id))
      (toolResults d m.tool_calls) = true
  exact wpGo_toolResults d m.tool_calls

theorem wellPaired_append (xs ys : List Message)
    (hx : wellPaired xs = true) (hy : wellPaired ys = true) :
    wellPaired (xs ++ ys) = true :=
  wpGo_append ys hy xs [] hx

theorem wellPaired_reviewAux (llm : List Message → LlmMessage)
    (d : String → List (String × Json) → String) :
    ∀ (fuel : Nat) (msgs : List Message) (calls : Nat), wellPaired msgs = true →
      wellPaired (reviewAux llm d msgs calls fuel).transcript = true := by
  intro fuel
  induction fuel with
  | zero => intro msgs calls h; exact h
  | succ n ih =>
      intro msgs calls h
      cases htc : (llm msgs).tool_calls with
      | nil =>
          rw [reviewAux_terminal llm d msgs calls n htc]
          exact h
      | cons tc tcs =>
          rw [reviewAux_step llm d msgs calls n tc tcs htc]
          exact ih _ _ (wellPaired_append _ _ h (wellPaired_roundBlock d (llm msgs)))

theorem reviewAux_findings_budget (llm : List Message → LlmMessage)
    (d : String → List (String × Json) → String)
    (h : ∀ ms, (llm ms).tool_calls ≠ []) :
    ∀ (fuel : Nat) (msgs : List Message) (calls : Nat),
      (reviewAux llm d msgs calls fuel).findings = Json.arr [] ∧
      (reviewAux llm d msgs calls fuel).modelCalls = calls + fuel := by
  intro fuel
  induction fuel with
  | zero => intro msgs calls; exact ⟨rfl, rfl⟩
  | succ n ih =>
      intro msgs calls
      cases htc : (llm msgs).tool_calls with
      | nil => exact absurd htc (h msgs)
      | cons tc tcs =>
          rw [reviewAux_step llm d msgs calls n tc tcs htc]
          refine ⟨(ih _ (calls + 1)).1, ?_⟩
          rw [(ih _ (calls + 1)).2]
          omega

theorem reviewAux_calls_le (llm : List Message → LlmMessage)
    (d : String → List (String × Json) → String) :
    ∀ (fuel : Nat) (msgs : List Message) (calls : Nat),
      (reviewAux llm d msgs calls fuel).modelCalls ≤ calls + fuel := by
  intro fuel
  induction fuel with
  | zero => intro msgs calls; exact Nat.le_refl _
  | succ n ih =>
      intro msgs calls
      cases htc : (llm msgs).tool_calls with
      | nil =>
          rw [reviewAux_terminal llm d msgs calls n htc]
          show calls + 1 ≤ calls + (n + 1)
          omega
      | cons tc tcs =>
          rw [reviewAux_step llm d msgs calls n tc tcs htc]
          have := ih (msgs ++ assistantMsgOf (llm msgs) ::
            toolResults d (llm msgs).tool_calls) (calls + 1)
          omega

/-! ## Claim theorems -/

/-- C1: whenever the model response carries no tool calls, the loop of
`Reviewer.review` terminates in that same round after exactly that one
model call, leaving the transcript as it was, and returns the result of
the structured-output extraction on that response's text content; in
particular this holds for `review` itself from its initial transcript. -/
theorem c1_no_toolcalls_terminates :
    (∀ (llm : List Message → LlmMessage)
        (dispatch : String → List (String × Json) → String)
        (msgs : List Message) (calls fuel : Nat),
        (llm msgs).tool_calls = [] →
        reviewAux llm dispatch msgs calls (fuel + 1) =
          ⟨extract (llm msgs).content, calls + 1, msgs⟩) ∧
    (∀ (llm : List Message → LlmMessage)
        (dispatch : String → List (String × Json) → String)
        (n p ct f md : String),
        (llm (initialMessages n p ct f md)).tool_calls = [] →
        review llm dispatch n p ct f md =
          ⟨extract (llm (initialMessages n p ct f md)).content, 1,
            initialMessages n p ct f md⟩) := by
  constructor
  · intro llm dispatch msgs calls fuel h
    exact reviewAux_terminal llm dispatch msgs calls fuel h
  · intro llm dispatch n p ct f md h
    exact reviewAux_terminal llm dispatch _ 0 4 h

/-- A model oracle that never requests tools. -/
def llmTerminal : List Message → LlmMessage :=
  fun _ => ⟨"all good []", []⟩

/-- A trivial dispatch oracle. -/
def dispatchNull : String → List (String × Json) → String :=
  fun _ _ => ""

theorem c1_witness :
    reviewAux llmTerminal dispatchNull [] 0 3 = ⟨Json.arr [], 1, []⟩ :=
  (c1_no_toolcalls_terminates.1 llmTerminal dispatchNull [] 0 2 rfl).trans rfl

/-- C2: against a model that requests tool calls in every response, the
loop of `Reviewer.review` performs exactly its round budget of 5 model
calls and returns the empty list; and for any model behaviour at all the
number of model calls is bounded by the budget. -/
theorem c2_budget_exhaustion :
    (∀ (llm : List Message → LlmMessage)
        (dispatch : String → List (String × Json) → String)
        (n p ct f md : String),
        (∀ ms, (llm ms).tool_calls ≠ []) →
        (review llm dispatch n p ct f md).findings = Json.arr [] ∧
        (review llm dispatch n p ct f md).modelCalls = 5) ∧
    (∀ (llm : List Message → LlmMessage)
        (dispatch : String → List (String × Json) → String)
        (msgs : List Message) (calls fuel : Nat),
        (∀ ms, (llm ms).tool_calls ≠ []) →
        (reviewAux llm dispatch msgs calls fuel).findings = Json.arr [] ∧
        (reviewAux llm dispatch msgs calls fuel).modelCalls = calls + fuel) ∧
    (∀ (llm : List Message → LlmMessage)
        (dispatch : String → List (String × Json) → String)
        (n p ct f md : String),
        (review llm dispatch n p ct f md).modelCalls ≤ 5) ∧
    (∀ (llm : List Message → LlmMessage)
        (dispatch : String → List (String × Json) → String)
        (msgs : List Message) (calls fuel : Nat),
        (reviewAux llm dispatch msgs calls fuel).modelCalls ≤ calls + fuel) := by
  refine ⟨?_, ?_, ?_, ?_⟩
  · intro llm dispatch n p ct f md h
    exact reviewAux_findings_budget llm dispatch h 5 (initialMessages n p ct f md) 0
  · intro llm dispatch msgs calls fuel h
    exact reviewAux_findings_budget llm dispatch h fuel msgs calls
  · intro llm dispatch n p ct f md
    exact reviewAux_calls_le llm dispatch 5 (initialMessages n p ct f md) 0
  · intro llm dispatch msgs calls fuel
    exact reviewAux_calls_le llm dispatch fuel msgs calls

/-- A model oracle that requests the same tool call in every response. -/
def llmAlwaysTool : List Message → LlmMessage :=
  fun _ => ⟨"", [⟨"call_1", "read_file", [("file_path", Json.str "a.py")]⟩]⟩

theorem c2_witness :
    (review llmAlwaysTool dispatchNull "A" "p" "c" "f.py" "File").findings =
      Json.arr [] ∧
    (review llmAlwaysTool dispatchNull "A" "p" "c" "f.py" "File").modelCalls = 5 :=
  c2_budget_exhaustion.1 llmAlwaysTool dispatchNull "A" "p" "c" "f.py" "File"
    (fun ms => by simp [llmAlwaysTool])

/-- C3: in a round whose response carries tool calls, the loop appends the
assistant message followed by exactly one tool-role message per call —
produced by dispatching the calls in issuance order — where the message at
position `i` of the appended block answers call `i` (tool role, matching
`tool_call_id`, content equal to that call's dispatch result); consequently
the final transcript satisfies the pairing invariant whenever the initial
one does. -/
theorem c3_tool_results_order :
    (∀ (llm : List Message → LlmMessage)
        (dispatch : String → List (String × Json) → String)
        (msgs : List Message) (calls fuel : Nat) (tc : ToolCall)
        (tcs : List ToolCall),
        (llm msgs).tool_calls = tc :: tcs →
        reviewAux llm dispatch msgs calls (fuel + 1) =
          reviewAux llm dispatch
            (msgs ++ assistantMsgOf (llm msgs) ::
              toolResults dispatch (llm msgs).tool_calls)
            (calls + 1) fuel) ∧
    (∀ (dispatch : String → List (String × Json) → String) (tcs : List ToolCall),
        (toolResults dispatch tcs).length = tcs.length) ∧
    (∀ (dispatch : String → List (String × Json) → String) (tcs : List ToolCall)
        (i : Nat) (h : i < tcs.length),
        (toolResults dispatch tcs)[i]? =
          some (toolResultMsg (tcs.get ⟨i, h⟩)
            (dispatch (tcs.get ⟨i, h⟩).name (tcs.get ⟨i, h⟩).arguments))) ∧
    (∀ (tc : ToolCall) (r : String),
        (toolResultMsg tc r).role = Role.tool ∧
        (toolResultMsg tc r).tool_call_id = some tc.id ∧
        (toolResultMsg tc r).content = r) ∧
    (∀ (llm : List Message → LlmMessage)
        (dispatch : String → List (String × Json) → String)
        (msgs : List Message) (calls fuel : Nat),
        wellPaired msgs = true →
        wellPaired (reviewAux llm dispatch msgs calls fuel).transcript = true) := by
  refine ⟨?_, ?_, ?_, ?_, ?_⟩
  · intro llm dispatch msgs calls fuel tc tcs h
    exact reviewAux_step llm dispatch msgs calls fuel tc tcs h
  · intro dispatch tcs
    simp [toolResults]
  · intro dispatch tcs i h
    simp [toolResults, List.getElem?_map, List.getElem?_eq_getElem h]
  · intro tc r
    exact ⟨rfl, rfl, rfl⟩
  · intro llm dispatch msgs calls fuel h
    exact wellPaired_reviewAux llm dispatch fuel msgs calls h

theorem c3_witness :
    reviewAux llmAlwaysTool dispatchNull [] 0 1 =
      reviewAux llmAlwaysTool dispatchNull
        ([] ++ assistantMsgOf (llmAlwaysTool []) ::
          toolResults dispatchNull (llmAlwaysTool []).tool_calls) 1 0 :=
  c3_tool_results_order.1 llmAlwaysTool dispatchNull [] 0 0
    ⟨"call_1", "read_file", [("file_path", Json.str "a.py")]⟩ [] rfl

/-! ## Helper lemmas about the extractor -/

theorem strFind_nonneg (s : String) (c : Char) (h : strFind s c ≠ -1) :
    0 ≤ strFind s c := by
  unfold strFind at h ⊢
  cases hf : s.toList.findIdx? (fun x => x == c) with
  | none => rw [hf] at h; exact absurd rfl h
  | some i => exact Int.natCast_nonneg i

theorem strRfind_ge_neg_one (s : String) (c : Char) : -1 ≤ strRfind s c := by
  unfold strRfind
  cases hf : s.toList.reverse.findIdx? (fun x => x == c) with
  | none => exact Int.le_refl (-1)
  | some i =>
      exact le_trans (by omega) (Int.natCast_nonneg (s.toList.length - 1 - i))

theorem pySubstr_nil (s : String) (a b : Int) (ha : 0 ≤ a) (hb : 0 ≤ b)
    (hba : b ≤ a) : pySubstr s a b = "" := by
  simp only [pySubstr, pySlice]
  rw [if_neg (by omega), if_neg (by omega)]
  have h1 : (s.toList.take (min b.toNat s.toList.length)).length ≤
      min a.toNat s.toList.length := by
    rw [List.length_take]
    omega
  rw [List.drop_eq_nil_of_le h1]

theorem pyJsonLoads_nil : pyJsonLoads "" = Except.error "Expecting value" := rfl

/-- C4 (amended): the extraction locates the first `[` and the last `]` and,
when both exist, returns the value `json.loads` parses from the enclosed
slice verbatim: elements are not coerced into Finding records, unknown
fields are kept, nothing is defaulted, and elements missing `file` or
`description` are kept rather than skipped. -/
theorem c4_extract_verbatim :
    ∀ (text : String) (xs : List Json),
      strFind text '[' ≠ -1 →
      strRfind text ']' ≠ -1 →
      pyJsonLoads (pySubstr text (strFind text '[') (strRfind text ']' + 1)) =
        Except.ok (Json.arr xs) →
      extract text = Json.arr xs := by
  intro text xs h1 h2 hp
  have hge := strRfind_ge_neg_one text ']'
  have hcond : strFind text '[' ≠ -1 ∧ strRfind text ']' + 1 ≠ 0 :=
    ⟨h1, by omega⟩
  unfold extract extractBody
  rw [if_pos hcond, hp]

/-- C4 counterexample: on `[{"foo": 1}]` the extraction returns the parsed
element although it lacks both required Finding fields; the claim's
required-field skipping would have produced the empty list. -/
theorem c4_counterexample :
    extract "[\x7b\"foo\": 1\x7d]" = Json.arr [Json.obj [("foo", Json.num 1)]] ∧
    extract "[\x7b\"foo\": 1\x7d]" ≠ Json.arr [] := by
  constructor
  · rfl
  · intro heq
    have hv : extract "[\x7b\"foo\": 1\x7d]" =
        Json.arr [Json.obj [("foo", Json.num 1)]] := rfl
    rw [hv] at heq
    injection heq with h3
    exact List.cons_ne_nil _ _ h3

theorem c4_witness :
    extract "result: [\x7b\"file\": \"a.py\", \"description\": \"bad\"\x7d] end" =
      Json.arr [Json.obj [("file", Json.str "a.py"),
        ("description", Json.str "bad")]] :=
  c4_extract_verbatim _ _ (by decide) (by decide) rfl

/-- C5: the extraction never raises to its caller (it is a total function
into `Json` by construction, every `json.loads` exception being caught),
and in each failure case — no `[`, no `]`, first `[` after the last `]`,
or a slice `json.loads` rejects — it returns the empty list. -/
theorem c5_extract_never_raises :
    ∀ (text : String),
      strFind text '[' = -1 ∨ strRfind text ']' = -1 ∨
        strRfind text ']' < strFind text '[' ∨
        (∃ e, pyJsonLoads
          (pySubstr text (strFind text '[') (strRfind text ']' + 1)) =
            Except.error e) →
      extract text = Json.arr [] := by
  intro text hcase
  by_cases hcond : strFind text '[' ≠ -1 ∧ strRfind text ']' + 1 ≠ 0
  · have hext : extractBody text =
        pyJsonLoads (pySubstr text (strFind text '[') (strRfind text ']' + 1)) := by
      unfold extractBody
      rw [if_pos hcond]
    rcases hcase with h1 | h2 | h3 | ⟨e, he⟩
    · exact absurd h1 hcond.1
    · exfalso; apply hcond.2; omega
    · have ha : 0 ≤ strFind text '[' := strFind_nonneg text '[' hcond.1
      have hge := strRfind_ge_neg_one text ']'
      have hsub : pySubstr text (strFind text '[') (strRfind text ']' + 1) = "" :=
        pySubstr_nil text _ _ ha (by omega) (by omega)
      unfold extract
      rw [hext, hsub, pyJsonLoads_nil]
    · unfold extract
      rw [hext, he]
  · unfold extract extractBody
    rw [if_neg hcond]

theorem c5_witness : extract "no brackets here" = Json.arr [] :=
  c5_extract_never_raises "no brackets here" (Or.inl rfl)

/-- C6 (amended): `tool_handler` performs no schema validation before
invoking a registered handler; the arguments go straight into the call as
keyword arguments, so an argument keyword outside the declared parameters,
or a missing required parameter, raises an uncontrolled `TypeError` out of
dispatch instead of yielding a result (and instead of any ValidationError
or tolerance for extra parameters). -/
theorem c6_no_validation :
    (∀ (run : String → List (String × Json) → String)
        (args : List (String × Json)) (params : List ParamSpec) (nm : String),
        toolParams nm = some params →
        args.any (fun a => params.all (fun p => !(p.pname == a.1))) = true →
        tool_handler run nm args = Except.error "TypeError: unexpected keyword argument") ∧
    (∀ (run : String → List (String × Json) → String)
        (args : List (String × Json)) (params : List ParamSpec) (nm : String),
        toolParams nm = some params →
        args.any (fun a => params.all (fun p => !(p.pname == a.1))) = false →
        params.any (fun p => p.required && (lookupArg args p.pname).isNone) = true →
        tool_handler run nm args = Except.error "TypeError: missing required argument") := by
  constructor
  · intro run args params nm hp ha
    simp [tool_handler, hp, bindKwargs, ha]
    rfl
  · intro run args params nm hp ha hr
    simp [tool_handler, hp, bindKwargs, ha, hr]
    rfl

/-- A trivial handler-body oracle. -/
def runNull : String → List (String × Json) → String := fun _ _ => ""

/-- C6 counterexample: a call to the registered tool `read_file` with an
unknown extra parameter is not tolerated but raises, and a call missing the
required `file_path` raises an uncontrolled `TypeError`, not a
ValidationError produced by a validation step. -/
theorem c6_counterexample :
    tool_handler runNull "read_file"
        [("file_path", Json.str "a.py"), ("bogus", Json.num 1)] =
      Except.error "TypeError: unexpected keyword argument" ∧
    tool_handler runNull "read_file" [] =
      Except.error "TypeError: missing required argument" :=
  ⟨rfl, rfl⟩

theorem c6_witness :
    tool_handler runNull "grep_codebase" [("wrong_name", Json.str "x")] =
      Except.error "TypeError: unexpected keyword argument" :=
  c6_no_validation.1 runNull [("wrong_name", Json.str "x")]
    [⟨"search_pattern", true⟩] "grep_codebase" rfl rfl

/-- C7: for any unregistered tool name and any arguments, `tool_handler`
returns the not-found text as an ordinary result rather than raising, and a
round whose single tool call bears such a name proceeds to the next round
of the loop, the error text appended as that call's tool result. -/
theorem c7_unknown_tool :
    (∀ (run : String → List (String × Json) → String) (nm : String)
        (args : List (String × Json)),
        toolParams nm = none →
        tool_handler run nm args = Except.ok ("Error: Tool " ++ nm ++ " not found.")) ∧
    (∀ (run : String → List (String × Json) → String)
        (d : String → List (String × Json) → String)
        (llm : List Message → LlmMessage) (msgs : List Message)
        (calls fuel : Nat) (cid nm : String) (args : List (String × Json)),
        toolParams nm = none →
        (∀ a, tool_handler run nm a = Except.ok (d nm a)) →
        (llm msgs).tool_calls = [⟨cid, nm, args⟩] →
        reviewAux llm d msgs calls (fuel + 1) =
          reviewAux llm d
            (msgs ++ [assistantMsgOf (llm msgs),
              toolResultMsg ⟨cid, nm, args⟩ ("Error: Tool " ++ nm ++ " not found.")])
            (calls + 1) fuel) := by
  constructor
  · intro run nm args h
    simp [tool_handler, h]
  · intro run d llm msgs calls fuel cid nm args hn hagree htc
    have hd : d nm args = "Error: Tool " ++ nm ++ " not found." := by
      have h1 := hagree args
      simp [tool_handler, hn] at h1
      exact h1.symm
    rw [reviewAux_step llm d msgs calls fuel _ _ htc, htc]
    simp [toolResults, hd]

/-- A model oracle that first requests an unregistered tool, then stops. -/
def llmUnknownTool : List Message → LlmMessage :=
  fun ms =>
    if ms.length = 0 then ⟨"", [⟨"call_9", "write_file", []⟩]⟩ else ⟨"[]", []⟩

/-- A dispatch oracle returning the not-found text, as `tool_handler` does
for unregistered names. -/
def dUnknown : String → List (String × Json) → String :=
  fun nm _ => "Error: Tool " ++ nm ++ " not found."

theorem c7_witness :
    reviewAux llmUnknownTool dUnknown [] 0 2 =
      reviewAux llmUnknownTool dUnknown
        ([] ++ [assistantMsgOf (llmUnknownTool []),
          toolResultMsg ⟨"call_9", "write_file", []⟩
            "Error: Tool write_file not found."]) 1 1 :=
  c7_unknown_tool.2 runNull dUnknown llmUnknownTool [] 0 1 "call_9" "write_file" []
    rfl (fun _ => rfl) rfl

/-- C8 (amended): the transcript is a plain list and appending never fails —
no pairing invariant is enforced at append time, and no ProtocolError
exists in the code; the pairing invariant nevertheless holds of every
transcript the loop itself builds, because only the loop appends. -/
theorem c8_append_unchecked :
    (∀ (ms : List Message) (m : Message), appendMessage ms m = Except.ok (ms ++ [m])) ∧
    (∀ (llm : List Message → LlmMessage)
        (dispatch : String → List (String × Json) → String)
        (msgs : List Message) (calls fuel : Nat),
        wellPaired msgs = true →
        wellPaired (reviewAux llm dispatch msgs calls fuel).transcript = true) :=
  ⟨fun _ _ => rfl,
   fun llm d msgs calls fuel h => wellPaired_reviewAux llm d fuel msgs calls h⟩

/-- An assistant message requesting one tool call with id `call_a`. -/
def mismatchedAssistant : Message :=
  ⟨Role.assistant, "", [⟨"call_a", "read_file", []⟩], none, none⟩

/-- A tool-role message answering a different id, `call_b`. -/
def mismatchedTool : Message :=
  ⟨Role.tool, "result", [], some "call_b", some "read_file"⟩

/-- C8 counterexample: appending a tool-role message whose `tool_call_id`
matches no unanswered call of the preceding assistant message succeeds —
no ProtocolError is raised — even though the resulting transcript violates
the pairing invariant. -/
theorem c8_counterexample :
    appendMessage [mismatchedAssistant] mismatchedTool =
      Except.ok [mismatchedAssistant, mismatchedTool] ∧
    wellPaired [mismatchedAssistant, mismatchedTool] = false :=
  ⟨rfl, rfl⟩

theorem c8_witness :
    wellPaired (reviewAux llmAlwaysTool dispatchNull [] 0 2).transcript = true :=
  c8_append_unchecked.2 llmAlwaysTool dispatchNull [] 0 2 rfl

/-- C9 (amended): in review.py a named file that does not exist exits with
status 1 and a diagnostic, but when no file argument is given and there are
no staged changes the program exits with status 0 (with a message), and
credentials are not checked at startup; in scribe.py missing credentials
and an empty staged diff both exit with status 1 and a diagnostic. -/
theorem c9_cli_exits :
    (∀ (fe : String → Bool) (rf : String → String) (gf : Bool) (so f : String),
        f ≠ "" → fe f = false →
        reviewMainStartup fe rf gf so (some f) =
          StartupResult.exit 1 ("Error: File '" ++ f ++ "' not found.")) ∧
    (∀ (fe : String → Bool) (rf : String → String) (so : String),
        pyStrip so = "" →
        reviewMainStartup fe rf false so none =
          StartupResult.exit 0 "No staged changes to review.") ∧
    (∀ (gitOk : Bool) (so : String),
        scribeStartup none gitOk so =
          ScribeResult.exit 1 "❌ Error: OPENROUTER_API_KEY not found") ∧
    (∀ (k : Option String) (so : String),
        pyFalsyStr k = false → pyStrip so = "" →
        scribeStartup k true so = ScribeResult.exit 1 "❌ No staged changes found") := by
  refine ⟨?_, ?_, ?_, ?_⟩
  · intro fe rf gf so f hf hfe
    simp [reviewMainStartup, hf, hfe]
  · intro fe rf so hso
    simp [reviewMainStartup, hso]
  · intro gitOk so
    simp [scribeStartup, pyFalsyStr]
  · intro k so hk hso
    simp [scribeStartup, hk, hso]

/-- C9 counterexample: with no file argument and an empty staged diff,
review.py exits with status 0, not a non-zero status. -/
theorem c9_counterexample :
    reviewMainStartup (fun _ => false) (fun _ => "") false "" none =
      StartupResult.exit 0 "No staged changes to review." := rfl

theorem c9_witness :
    reviewMainStartup (fun _ => false) (fun _ => "") false "" (some "missing.py") =
      StartupResult.exit 1 "Error: File 'missing.py' not found." :=
  c9_cli_exits.1 (fun _ => false) (fun _ => "") false "" "missing.py"
    (by decide) rfl

/-- C10: for an existing file within the 1MB size limit, `read_file`
applies the 1-indexed line range only when both bounds are given; when
exactly one of `start_line`/`end_line` is supplied the range is silently
ignored and the result is identical to requesting the whole file, namely
the joined lines subject to the 50000-character truncation cap. -/
theorem c10_read_file_range :
    ∀ (fs : String → Option FileData) (p : String) (fd : FileData)
      (sl el : Option Int),
      fs p = some fd → fd.size ≤ 1000000 →
      (sl.isSome ≠ el.isSome →
        read_file fs p sl el = read_file fs p none none) ∧
      (read_file fs p none none =
        (if (String.join fd.lines).length > 50000 then
          (String.join fd.lines).take 50000 ++ "\n... [TRUNCATED DUE TO LENGTH] ..."
        else String.join fd.lines)) := by
  intro fs p fd sl el hfs hsize
  have hnot : ¬ fd.size > 1000000 := by omega
  constructor
  · intro hx
    cases sl with
    | none =>
        cases el with
        | none => rfl
        | some e => simp [read_file, hfs, hnot]
    | some s =>
        cases el with
        | none => simp [read_file, hfs, hnot]
        | some e => simp at hx
  · simp [read_file, hfs, hnot]

/-- A one-entry filesystem for the witness. -/
def fdSmall : FileData := ⟨18, ["line one\n", "line two\n"]⟩

/-- The witness filesystem: a single small file `a.txt`. -/
def fsSmall : String → Option FileData :=
  fun p => if p = "a.txt" then some fdSmall else none

theorem c10_witness :
    read_file fsSmall "a.txt" (some 1) none = read_file fsSmall "a.txt" none none :=
  (c10_read_file_range fsSmall "a.txt" fdSmall (some 1) none rfl
    (by decide)).1 (by decide)

end Aip444
